import Mathlib

/-!
Verification development for the observability harness consisting of
`tools/ai_monitor.py` (eBPF-based live dashboard with an event correlator
and a log2 latency histogram) and `benchmarks/stress_test.py` (bounded
duration soak driver with counter-snapshot polling).  The Python source
and the embedded eBPF C program are shallowly embedded as executable Lean
definitions; the theorems below settle the spec's testable properties.
-/

namespace Prism

/-! ## Python string helpers

These are written by structural recursion over the character list of the
string so that every use computes by kernel reduction. -/

/-- Helper for `pySplit`: tokenize into maximal runs of non-whitespace
characters, accumulating the current (reversed) token. -/
def wsSplitAux : List Char → List Char → List (List Char)
  | [], acc => if acc.isEmpty then [] else [acc.reverse]
  | c :: rest, acc =>
    if c.isWhitespace then
      if acc.isEmpty then wsSplitAux rest []
      else acc.reverse :: wsSplitAux rest []
    else wsSplitAux rest (c :: acc)

/-- Python `str.split()` with no arguments: split on runs of whitespace,
dropping empty tokens. -/
def pySplit (s : String) : List String :=
  (wsSplitAux s.toList []).map (fun g => String.mk g)

/-- Helper for `pyLines`: split on a separator character, keeping empty
pieces (Python `str.split(sep)` semantics). -/
def sepSplitAux (sep : Char) : List Char → List Char → List (List Char)
  | [], acc => [acc.reverse]
  | c :: rest, acc =>
    if c == sep then acc.reverse :: sepSplitAux sep rest []
    else sepSplitAux sep rest (c :: acc)

/-- Python `content.split(chr 10)`: split into lines on the newline
character, keeping empty lines. -/
def pyLines (s : String) : List String :=
  (sepSplitAux '\n' s.toList []).map (fun g => String.mk g)

/-- Helper for `pyContains`: `pat` occurs as a contiguous substring. -/
def listContains (pat : List Char) : List Char → Bool
  | [] => pat.isEmpty
  | c :: rest => pat.isPrefixOf (c :: rest) || listContains pat rest

/-- Python `pat in s` substring test. -/
def pyContains (s pat : String) : Bool :=
  listContains pat.toList s.toList

/-- Python `int(tok)` on a whitespace-free token: an optional sign followed
by one or more decimal digits parses to an integer, anything else raises
`ValueError` (modelled as `none`). -/
def pyIntParse (s : String) : Option Int :=
  let cs := s.toList
  let signed : Bool × List Char :=
    match cs with
    | '-' :: rest => (true, rest)
    | '+' :: rest => (false, rest)
    | _ => (false, cs)
  let neg := signed.1
  let ds := signed.2
  if ds.isEmpty then none
  else if ds.all Char.isDigit then
    -- 48 is the code point of the digit zero
    let n : Nat := ds.foldl (fun acc c => acc * 10 + (c.toNat - 48)) 0
    some (if neg then -(n : Int) else (n : Int))
  else none

/-! ## StressTest aggregate state (stress_test.py)

`self.stats = defaultdict(int)` with the keys actually used:
`inferences`, `peak_memory`, `gpu_checks`. -/

structure Stats where
  inferences : Nat
  peak_memory : Int
  gpu_checks : Nat
deriving Repr, DecidableEq

/-- Fresh `defaultdict(int)`: every counter starts at 0. -/
def initStats : Stats := ⟨0, 0, 0⟩

/-! ## Counter Snapshot Reader (StressTest.check_memory_usage) -/

/-- One line of the memory surface, from the body of the
`for line in content.split(chr 10)` loop of `check_memory_usage`:
if the line contains the text `Allocated:` and splits into at least two
whitespace tokens, `int(parts[1])` is taken (raising `ValueError`, modelled
as `.error ()`, when malformed) and max-merged into `peak_memory`;
otherwise the line is skipped. -/
def process_line (st : Stats) (line : String) : Except Unit Stats :=
  if pyContains line "Allocated:" then
    match pySplit line with
    | _ :: p1 :: _ =>
      match pyIntParse p1 with
      | some allocated =>
          .ok { st with peak_memory := max st.peak_memory allocated }
      | none => .error ()
    | _ => .ok st
  else .ok st

/-- StressTest.check_memory_usage: a missing surface (`FileNotFoundError`)
is caught and the state is untouched; otherwise every line of the content
is processed in order, and a `ValueError` from a malformed number
propagates (only `FileNotFoundError` is caught in the source). -/
def check_memory_usage (surface : Option String) (st : Stats) :
    Except Unit Stats :=
  match surface with
  | none => .ok st
  | some content => (pyLines content).foldlM process_line st

/-- StressTest.check_gpu_stats: reading the GPU surface only bumps
`gpu_checks`; the content is read but never parsed.  A missing surface is
caught and is a no-op. -/
def check_gpu_stats (surface : Option String) (st : Stats) : Stats :=
  match surface with
  | none => st
  | some _ => { st with gpu_checks := st.gpu_checks + 1 }

/-- A sequence of memory-surface reads, each either available with the
given content or unavailable (`none`). -/
def readSeq (reads : List (Option String)) (st : Stats) : Except Unit Stats :=
  reads.foldlM (fun s o => check_memory_usage o s) st

/-- Value contributed by one line of surface content: the parsed second
token of a well-formed `Allocated:` line, and nothing otherwise. -/
def lineVal (line : String) : Option Int :=
  if pyContains line "Allocated:" then
    match pySplit line with
    | _ :: p1 :: _ => pyIntParse p1
    | _ => none
  else none

/-- Pure per-line state transformer corresponding to the non-raising runs
of `process_line`. -/
def lineStep (st : Stats) (line : String) : Stats :=
  match lineVal line with
  | some v => { st with peak_memory := max st.peak_memory v }
  | none => st

/-- All `Allocated:` values extracted from one surface content. -/
def allocVals (content : String) : List Int :=
  (pyLines content).filterMap lineVal

/-- All `Allocated:` values seen across the available reads of a
sequence, in order. -/
def seenVals (reads : List (Option String)) : List Int :=
  ((reads.filterMap id).map allocVals).flatten

/-! ## Event Correlator and Histogram Aggregator (ai_monitor.py, eBPF)

The eBPF program of `ai_monitor.py` keeps a `BPF_HASH(inference_start,
u64, u64)` keyed by `pid_tgid` and a `BPF_HISTOGRAM(inference_latency)`.
The hash is embedded as an association list with set semantics (a BPF
hash has unique keys: update overwrites, delete removes the key); the
histogram is embedded as the log of incremented slot indices, so that a
slot's count is `List.count slot` over the log. -/

/-- BPF hash `lookup`. -/
def mapLookup (m : List (Nat × Nat)) (k : Nat) : Option Nat :=
  (m.find? (fun p => p.1 == k)).map (fun p => p.2)

/-- BPF hash `update`: insert or overwrite the binding for `k`. -/
def mapUpdate (m : List (Nat × Nat)) (k v : Nat) : List (Nat × Nat) :=
  (k, v) :: m.filter (fun p => p.1 != k)

/-- BPF hash `delete`: remove the binding for `k`. -/
def mapDelete (m : List (Nat × Nat)) (k : Nat) : List (Nat × Nat) :=
  m.filter (fun p => p.1 != k)

/-- BCC helper `bpf_log2` (from bcc's exported helpers): binary logarithm
of a `u32` by successive shifts. -/
def bpf_log2 (v : Nat) : Nat :=
  let r1 := if 65535 < v then 16 else 0
  let v1 := v >>> r1
  let s2 := if 255 < v1 then 8 else 0
  let v2 := v1 >>> s2
  let s3 := if 15 < v2 then 4 else 0
  let v3 := v2 >>> s3
  let s4 := if 3 < v3 then 2 else 0
  let v4 := v3 >>> s4
  r1 ||| s2 ||| s3 ||| s4 ||| (v4 >>> 1)

/-- BCC helper `bpf_log2l`: the histogram slot BCC assigns to a `u64`
value, namely `bpf_log2` of the value plus one. -/
def bpf_log2l (v : Nat) : Nat :=
  let hi := v >>> 32
  if hi ≠ 0 then bpf_log2 hi + 32 + 1 else bpf_log2 v + 1

/-- Unsigned 64-bit subtraction `a - b` as performed on `u64` values in
the eBPF program (18446744073709551616 is 2 to the 64th). -/
def u64sub (a b : Nat) : Nat :=
  (a % 18446744073709551616 +
    (18446744073709551616 - b % 18446744073709551616)) %
    18446744073709551616

/-- State of the eBPF program: the pending-call map `inference_start`
and the latency histogram `inference_latency` (log of incremented
slots). -/
structure CorrState where
  inference_start : List (Nat × Nat)
  inference_latency : List Nat
deriving Repr, DecidableEq

/-- Freshly loaded eBPF program: both tables empty. -/
def initCorr : CorrState := ⟨[], []⟩

/-- eBPF `trace_cuda_launch`: record the start timestamp for the calling
`pid_tgid` (insert or overwrite). -/
def trace_cuda_launch (s : CorrState) (pid_tgid ts : Nat) : CorrState :=
  { s with inference_start := mapUpdate s.inference_start pid_tgid ts }

/-- eBPF `trace_cuda_complete`: look up the pending start for `pid_tgid`;
if present, convert the `u64` delta to milliseconds, increment histogram
slot `bpf_log2l latency_ms`, and delete the pending entry; if absent, do
nothing (and return 0: no error path exists). -/
def trace_cuda_complete (s : CorrState) (pid_tgid ts : Nat) : CorrState :=
  match mapLookup s.inference_start pid_tgid with
  | some start_ts =>
    let delta := u64sub ts start_ts
    let latency_ms := delta / 1000000
    { inference_start := mapDelete s.inference_start pid_tgid,
      inference_latency := bpf_log2l latency_ms :: s.inference_latency }
  | none => s

/-- Durations in milliseconds of the ten matched pairs of the spec's
histogram scenario. -/
def scenarioDurations : List Nat := [1, 1, 2, 4, 8, 16, 32, 64, 128, 256]

/-- Correlator state after ten matched start/end pairs with the scenario
durations: pair `i` starts at timestamp 0 and ends `d * 1000000`
nanoseconds later, using the list index as `pid_tgid`. -/
def scenarioState : CorrState :=
  scenarioDurations.enum.foldl
    (fun s p =>
      trace_cuda_complete (trace_cuda_launch s p.1 0) p.1 (p.2 * 1000000))
    initCorr

/-! ## Soak Driver (StressTest.run)

The loop of `StressTest.run` is embedded with a discrete wall clock in
milliseconds: time.time() advances only through the blocking sleeps of an
iteration (10 ms in `run_inference_batch` plus the 1 ms loop sleep) and a
per-iteration scheduling overhead `extraMs`.  An external
`KeyboardInterrupt` is modelled as arriving at an iteration boundary.
The loop is driven by a fuel argument so that it is structurally
recursive; `run` hands it fuel `duration + 1`, which the theorems show is
never exhausted because every iteration advances the clock. -/

/-- Environment of one soak-driver run: the recognized modules reported
by `lsmod`, the two surfaces as functions of the iteration at which they
are polled, the per-iteration scheduling overhead in milliseconds, and
the iteration boundary (if any) at which a `KeyboardInterrupt` arrives. -/
structure RunEnv where
  modules : List String
  memSurface : Nat → Option String
  gpuSurface : Nat → Option String
  extraMs : Nat → Nat
  interrupt : Option Nat

/-- Outcome of the while loop: final stats, clock, iteration count,
number of progress reports emitted, and whether a `KeyboardInterrupt`
ended it. -/
structure LoopOut where
  stats : Stats
  clock : Nat
  iteration : Nat
  reports : Nat
  interrupted : Bool
deriving Repr, DecidableEq

/-- Body of the every-100-iterations branch: `check_memory_usage` then
`check_gpu_stats`; a `ValueError` from the memory surface propagates. -/
def pollSurfaces (env : RunEnv) (i : Nat) (st : Stats) : Except Unit Stats :=
  match check_memory_usage (env.memSurface i) st with
  | .ok st2 => .ok (check_gpu_stats (env.gpuSurface i) st2)
  | .error e => .error e

/-- While loop of `StressTest.run`: while the elapsed time is below the
configured duration, bump the iteration counter, run an inference batch
(counter increment plus 10 ms sleep), poll the surfaces every 100
iterations, emit a progress report when 60 s have passed since the last
one, and sleep 1 ms.  `t` is the clock, `lastReport` the cadence timer,
`i` the iteration counter and `nR` the number of reports so far.
Returns `none` only on fuel exhaustion. -/
def soakLoop (env : RunEnv) (duration fuel t lastReport i : Nat)
    (st : Stats) (nR : Nat) : Option (Except Unit LoopOut) :=
  match fuel with
  | 0 => none
  | fuel' + 1 =>
    if env.interrupt = some i then some (.ok ⟨st, t, i, nR, true⟩)
    else if t < duration then
      let i' := i + 1
      let st1 := { st with inferences := st.inferences + 1 }
      match (if i' % 100 = 0 then pollSurfaces env i' st1 else .ok st1) with
      | .error e => some (.error e)
      | .ok st2 =>
        let t' := t + 11 + env.extraMs i
        if 60000 ≤ t' - lastReport then
          soakLoop env duration fuel' t' t' i' st2 (nR + 1)
        else
          soakLoop env duration fuel' t' lastReport i' st2 nR
    else some (.ok ⟨st, t, i, nR, false⟩)

/-- Result of one `StressTest.run`: exit status, number of progress
reports, whether the final report was printed, whether the no-modules
error was reported, the final stats, the elapsed time, and whether the
run was interrupted. -/
structure RunResult where
  status : Nat
  progressReports : Nat
  finalReport : Bool
  noModulesError : Bool
  stats : Stats
  elapsedMs : Nat
  interrupted : Bool
deriving Repr, DecidableEq

/-- StressTest.run: if no recognized module is loaded, report the error
and return 1 without entering the loop; otherwise run the loop from a
zero clock and, whether it finished by elapsed time or by
`KeyboardInterrupt`, print the final report and return 0.  A `ValueError`
escaping `check_memory_usage` propagates out of `run` (`.error`);
`none` marks fuel exhaustion, shown unreachable in the theorems. -/
def run (env : RunEnv) (duration : Nat) : Option (Except Unit RunResult) :=
  if env.modules.isEmpty then
    some (.ok ⟨1, 0, false, true, initStats, 0, false⟩)
  else
    match soakLoop env duration (duration + 1) 0 0 0 initStats 0 with
    | none => none
    | some (.error e) => some (.error e)
    | some (.ok out) =>
      some (.ok ⟨0, out.reports, true, false, out.stats, out.clock,
                 out.interrupted⟩)

/-! ## Dashboard Renderer (ai_monitor.py main loop) -/

/-- State held by a successfully loaded eBPF object `b`: the `gpu_util`
table and the correlator state. -/
structure BpfMonitor where
  gpu_util : List (Nat × Nat)
  corr : CorrState
deriving Repr, DecidableEq

/-- Freshly loaded eBPF object: all tables empty. -/
def initMonitor : BpfMonitor := ⟨[], initCorr⟩

/-- Loading and attaching in `main`: if `BPF(text=...)` fails, `b` is
`None` and tracing is disabled; if it succeeds, `b` is live even when the
`attach_kprobe` calls fail (the inner `except` only prints a warning), so
the second component records whether CUDA tracing was attached. -/
def setupMonitor (loadOk attachOk : Bool) : Option BpfMonitor × Bool :=
  if loadOk then (some initMonitor, attachOk) else (none, false)

/-- One section of the dashboard output. -/
inductive DashSection where
  | gpu (util : List (Nat × Nat))
  | latency (hist : List Nat)
  | memory (content : Option String)
  | scheduler (content : Option String)
deriving Repr, DecidableEq

/-- Body of `print_memory_stats`: the surface text when present, an
explicit not-loaded line when the open raises `FileNotFoundError`. -/
def print_memory_stats (surface : Option String) : List String :=
  match surface with
  | some c => [c]
  | none => ["  AI Memory module not loaded"]

/-- Body of `print_scheduler_stats`: as for the memory surface. -/
def print_scheduler_stats (surface : Option String) : List String :=
  match surface with
  | some c => [c]
  | none => ["  AI Scheduler module not loaded"]

/-- One iteration of the monitoring loop of `main`: the GPU and latency
sections are printed only when `b` is not `None`; the memory and
scheduler sections are printed unconditionally. -/
def renderTick (b : Option BpfMonitor) (mem sched : Option String) :
    List DashSection :=
  (match b with
   | some bb =>
     [DashSection.gpu bb.gpu_util,
      DashSection.latency bb.corr.inference_latency]
   | none => []) ++
  [DashSection.memory mem, DashSection.scheduler sched]

/-! ## Concrete environments used by the witnesses -/

/-- Soak environment with no recognized module loaded. -/
def envNoModules : RunEnv :=
  ⟨[], fun _ => none, fun _ => none, fun _ => 0, none⟩

/-- Soak environment interrupted before the first iteration. -/
def envInterrupt : RunEnv :=
  ⟨["ai_scheduler"], fun _ => none, fun _ => none, fun _ => 0, some 0⟩

/-- Healthy soak environment: one module, absent surfaces, no scheduling
overhead, no interrupt. -/
def envHealthy : RunEnv :=
  ⟨["ai_scheduler"], fun _ => none, fun _ => none, fun _ => 0, none⟩

/-! ## Map lemmas -/

/-- Updating a BPF hash makes the key present with the new value. -/
theorem mapLookup_update (m : List (Nat × Nat)) (k v : Nat) :
    mapLookup (mapUpdate m k v) k = some v := by
  simp [mapLookup, mapUpdate, List.find?]

/-- Deleting a key from a BPF hash makes its lookup miss. -/
theorem mapLookup_delete (m : List (Nat × Nat)) (k : Nat) :
    mapLookup (mapDelete m k) k = none := by
  unfold mapLookup mapDelete
  rw [List.find?_eq_none.mpr]
  · rfl
  · intro x hx
    have := (List.mem_filter.mp hx).2
    simp_all

/-- Unsigned 64-bit subtraction agrees with truncated subtraction when
the operands are ordered and in range. -/
theorem u64sub_eq (a b : Nat) (h0 : b ≤ a) (h1 : a < 18446744073709551616) :
    u64sub a b = a - b := by
  unfold u64sub
  omega

/-! ## Claim C1: matched start/end pairs and the latency histogram -/

/-- C1 (amended): for every matched `on_start`/`on_end` pair, the
histogram slot that increases by exactly 1 is `bpf_log2l duration_ms`,
which is `floor(log2 duration_ms) + 1` (BCC's slot convention), not
`floor(log2 duration_ms)`; the pending entry for the call id is removed.
In particular the ten matched pairs with durations
[1,1,2,4,8,16,32,64,128,256] ms populate exactly the slots
{1:2, 2:1, 3:1, 4:1, 5:1, 6:1, 7:1, 8:1, 9:1}. -/
theorem matched_pair_histogram (s : CorrState) (cid t0 t1 : Nat)
    (h0 : t0 ≤ t1) (h1 : t1 < 18446744073709551616) :
    ((trace_cuda_complete (trace_cuda_launch s cid t0) cid
        t1).inference_latency
      = bpf_log2l ((t1 - t0) / 1000000)
          :: (trace_cuda_launch s cid t0).inference_latency)
    ∧ (∀ k, ((trace_cuda_complete (trace_cuda_launch s cid t0) cid
          t1).inference_latency).count k
        = ((trace_cuda_launch s cid t0).inference_latency).count k
          + if k = bpf_log2l ((t1 - t0) / 1000000) then 1 else 0)
    ∧ mapLookup ((trace_cuda_complete (trace_cuda_launch s cid t0) cid
        t1).inference_start) cid = none
    ∧ scenarioState = ⟨[], [9, 8, 7, 6, 5, 4, 3, 2, 1, 1]⟩
    ∧ scenarioState.inference_latency.count 1 = 2
    ∧ (∀ j, 2 ≤ j → j ≤ 9 → scenarioState.inference_latency.count j = 1)
    ∧ scenarioState.inference_latency.count 0 = 0 := by
  have hl : mapLookup (trace_cuda_launch s cid t0).inference_start cid
      = some t0 := mapLookup_update _ _ _
  have hc : trace_cuda_complete (trace_cuda_launch s cid t0) cid t1
      = { inference_start :=
            mapDelete (trace_cuda_launch s cid t0).inference_start cid,
          inference_latency :=
            bpf_log2l (u64sub t1 t0 / 1000000)
              :: (trace_cuda_launch s cid t0).inference_latency } := by
    rw [trace_cuda_complete, hl]
  rw [hc, u64sub_eq t1 t0 h0 h1]
  refine ⟨rfl, ?_, mapLookup_delete _ _, by decide, by decide, ?_, by decide⟩
  · intro k
    rw [List.count_cons]
    by_cases hk : k = bpf_log2l ((t1 - t0) / 1000000)
    · simp [hk]
    · simp [hk, Ne.symm hk]
  · intro j hj2 hj9
    interval_cases j <;> decide

/-- C1 counterexample: after the ten scenario pairs the bucket with index
`floor(log2 1) = 0` holds 0 entries, not the 2 the claim states; the two
1 ms durations land in slot 1. -/
theorem bucket_zero_not_populated :
    scenarioState.inference_latency.count 0 = 0
    ∧ scenarioState.inference_latency.count 1 = 2 := by decide

/-- C1 witness: a concrete matched pair (call id 7, duration 5 ms)
instantiating the amended theorem. -/
theorem matched_pair_histogram_witness :
    ((trace_cuda_complete (trace_cuda_launch initCorr 7 0) 7
        5000000).inference_latency
      = bpf_log2l ((5000000 - 0) / 1000000)
          :: (trace_cuda_launch initCorr 7 0).inference_latency)
    ∧ (∀ k, ((trace_cuda_complete (trace_cuda_launch initCorr 7 0) 7
          5000000).inference_latency).count k
        = ((trace_cuda_launch initCorr 7 0).inference_latency).count k
          + if k = bpf_log2l ((5000000 - 0) / 1000000) then 1 else 0)
    ∧ mapLookup ((trace_cuda_complete (trace_cuda_launch initCorr 7 0) 7
        5000000).inference_start) 7 = none
    ∧ scenarioState = ⟨[], [9, 8, 7, 6, 5, 4, 3, 2, 1, 1]⟩
    ∧ scenarioState.inference_latency.count 1 = 2
    ∧ (∀ j, 2 ≤ j → j ≤ 9 → scenarioState.inference_latency.count j = 1)
    ∧ scenarioState.inference_latency.count 0 = 0 :=
  matched_pair_histogram initCorr 7 0 5000000 (by decide) (by decide)

/-! ## Claim C2: orphan end events -/

/-- C2 (amended): an `on_end` whose call id has no pending start leaves
the whole correlator state unchanged — the histogram is untouched, no
error is raised, and nothing records the event (the code keeps no orphan
diagnostic). -/
theorem orphan_end_noop (s : CorrState) (cid ts : Nat)
    (h : mapLookup s.inference_start cid = none) :
    trace_cuda_complete s cid ts = s := by
  rw [trace_cuda_complete, h]

/-- C2 witness: an orphan end on a state holding an unrelated pending
call. -/
theorem orphan_end_noop_witness :
    trace_cuda_complete ⟨[(1, 50)], []⟩ 42 100 = ⟨[(1, 50)], []⟩ :=
  orphan_end_noop ⟨[(1, 50)], []⟩ 42 100 (by decide)

/-- C2 counterexample: an orphan end on the fresh state returns the state
bit-for-bit unchanged, so no diagnostic orphan count exists anywhere in
the program state, contradicting the claim that the event is counted. -/
theorem orphan_end_not_counted :
    trace_cuda_complete initCorr 42 100 = initCorr := by decide

/-! ## Claim C4: malformed Allocated value -/

/-- C4: contrary to the claim, a malformed numeric value on an
`Allocated:` line is not skipped: `int(parts[1])` raises a `ValueError`
that is not caught (only `FileNotFoundError` is), so the whole read
aborts and the error reaches the caller. -/
theorem malformed_allocated_raises :
    check_memory_usage (some "Allocated: xyz") initStats
      = .error () := by rfl

/-! ## Claim C5: soak start with no modules loaded -/

/-- C5: starting the soak driver with zero recognized modules reports
the no-modules error, returns status 1, and never enters the loop: no
progress report, no final report, no inference, a zero clock. -/
theorem no_modules_fatal (env : RunEnv) (duration : Nat)
    (h : env.modules = []) :
    run env duration
      = some (.ok ⟨1, 0, false, true, initStats, 0, false⟩) := by
  simp [run, h]

/-- C5 witness: a 24-hour run (86400000 ms) with no modules loaded. -/
theorem no_modules_fatal_witness :
    run envNoModules 86400000
      = some (.ok ⟨1, 0, false, true, initStats, 0, false⟩) :=
  no_modules_fatal envNoModules 86400000 rfl

/-! ## Claim C8: dashboard degradation -/

/-- C8 (amended): when the eBPF program itself fails to load, `b` is
`None` and a render tick consists of exactly the memory and scheduler
sections (GPU and latency omitted), a missing surface rendering an
explicit not-loaded line; but when only the CUDA kprobe attach fails,
`b` is still live and the latency section is still rendered on every
tick. -/
theorem dashboard_degradation (mem sched : Option String)
    (b : BpfMonitor) :
    renderTick none mem sched
      = [DashSection.memory mem, DashSection.scheduler sched]
    ∧ (setupMonitor false false).1 = none
    ∧ (setupMonitor true false) = (some initMonitor, false)
    ∧ DashSection.latency b.corr.inference_latency
        ∈ renderTick (some b) mem sched
    ∧ print_memory_stats none = ["  AI Memory module not loaded"]
    ∧ print_scheduler_stats none = ["  AI Scheduler module not loaded"] := by
  refine ⟨rfl, rfl, rfl, ?_, rfl, rfl⟩
  simp [renderTick]

/-- C8 counterexample: a render tick after a failed kprobe attach (eBPF
load succeeded, so `b` is not `None`) still contains the latency
section, contradicting the claim that it is omitted whenever the tracing
attach has failed. -/
theorem attach_failed_latency_still_rendered :
    (setupMonitor true false).2 = false
    ∧ renderTick (setupMonitor true false).1 none none
      = [DashSection.gpu [], DashSection.latency [],
         DashSection.memory none, DashSection.scheduler none] := by
  exact ⟨rfl, rfl⟩

/-! ## Claim C9: short Allocated lines are skipped safely -/

/-- C9: a line that contains `Allocated:` but splits into fewer than two
whitespace tokens is skipped: the guard `len(parts) >= 2` prevents the
`parts[1]` access, the state is unchanged and no error is raised. -/
theorem short_line_skipped (st : Stats) (line : String)
    (hc : pyContains line "Allocated:" = true)
    (hlen : (pySplit line).length < 2) :
    process_line st line = .ok st := by
  unfold process_line
  rcases e : pySplit line with _ | ⟨a, _ | ⟨b, l⟩⟩
  · simp [hc, e]
  · simp [hc, e]
  · rw [e] at hlen
    simp only [List.length_cons] at hlen
    omega

/-- C9 witness: the bare line `Allocated:` contains the pattern yet has
a single token. -/
theorem short_line_skipped_witness :
    process_line initStats "Allocated:" = .ok initStats :=
  short_line_skipped initStats "Allocated:" (by decide) (by decide)

/-! ## Claim C10: GPU-surface poll frame conditions -/

/-- C10: a GPU poll with the surface readable increments `gpu_checks` by
exactly one and touches nothing else, independently of the content
(which is never parsed); with the surface absent the whole state is
unchanged. -/
theorem gpu_poll_frame (st : Stats) :
    check_gpu_stats none st = st
    ∧ (∀ c, check_gpu_stats (some c) st
        = { st with gpu_checks := st.gpu_checks + 1 }) :=
  ⟨rfl, fun _ => rfl⟩

/-! ## Claim C3: peak memory is the max-merge of successful reads -/

/-- Non-raising runs of `process_line` coincide with the pure
`lineStep`. -/
theorem process_line_ok_eq (st : Stats) (line : String) (st' : Stats)
    (h : process_line st line = .ok st') : st' = lineStep st line := by
  by_cases hc : pyContains line "Allocated:" = true
  · rcases e : pySplit line with _ | ⟨p0, _ | ⟨p1, rest⟩⟩
    · simp [process_line, lineStep, lineVal, hc, e] at h ⊢
      exact h.symm
    · simp [process_line, lineStep, lineVal, hc, e] at h ⊢
      exact h.symm
    · rcases hv : pyIntParse p1 with _ | v
      · simp [process_line, hc, e, hv] at h
      · simp [process_line, lineStep, lineVal, hc, e, hv] at h ⊢
        exact h.symm
  · simp [process_line, lineStep, lineVal, hc] at h ⊢
    exact h.symm

/-- Folding `process_line` without an error is folding `lineStep`. -/
theorem foldlM_process_ok :
    ∀ (lines : List String) (st st' : Stats),
      lines.foldlM process_line st = .ok st' →
      st' = lines.foldl lineStep st := by
  intro lines
  induction lines with
  | nil =>
    intro st st' h
    exact (Except.ok.inj h).symm
  | cons a l ih =>
    intro st st' h
    rw [List.foldlM_cons] at h
    cases hp : process_line st a with
    | error e => rw [hp] at h; exact Except.noConfusion h
    | ok s1 =>
      rw [hp] at h
      rw [List.foldl_cons, ← process_line_ok_eq st a s1 hp]
      exact ih s1 st' h

/-- Fields of a `lineStep` fold: the peak is the max-merge of the line
values, the other counters are untouched. -/
theorem foldl_lineStep_fields :
    ∀ (lines : List String) (st : Stats),
      (lines.foldl lineStep st).peak_memory
        = (lines.filterMap lineVal).foldl max st.peak_memory
      ∧ (lines.foldl lineStep st).inferences = st.inferences
      ∧ (lines.foldl lineStep st).gpu_checks = st.gpu_checks := by
  intro lines
  induction lines with
  | nil => intro st; exact ⟨rfl, rfl, rfl⟩
  | cons a l ih =>
    intro st
    rw [List.foldl_cons, List.filterMap_cons]
    cases hv : lineVal a with
    | none =>
      have hs : lineStep st a = st := by rw [lineStep, hv]
      rw [hs]
      exact ih st
    | some v =>
      have hs : lineStep st a
          = { st with peak_memory := max st.peak_memory v } := by
        rw [lineStep, hv]
      rw [hs, List.foldl_cons]
      exact ih _

/-- Values contributed by one read. -/
def readVals (o : Option String) : List Int :=
  match o with
  | none => []
  | some c => allocVals c

/-- One non-raising `check_memory_usage` call max-merges the read's
values into the peak and changes nothing else. -/
theorem check_memory_usage_ok (o : Option String) (st st' : Stats)
    (h : check_memory_usage o st = .ok st') :
    st'.peak_memory = (readVals o).foldl max st.peak_memory
    ∧ st'.inferences = st.inferences
    ∧ st'.gpu_checks = st.gpu_checks := by
  cases o with
  | none =>
    have : st = st' := Except.ok.inj h
    rw [← this]
    exact ⟨rfl, rfl, rfl⟩
  | some c =>
    have he : st' = (pyLines c).foldl lineStep st :=
      foldlM_process_ok (pyLines c) st st' h
    rw [he, readVals]
    exact foldl_lineStep_fields (pyLines c) st

/-- Seed of a max fold is a lower bound of its result. -/
theorem le_foldl_max (l : List Int) : ∀ b : Int, b ≤ l.foldl max b := by
  induction l with
  | nil => intro b; exact le_refl b
  | cons v vs ih =>
    intro b
    exact le_trans (le_max_left b v) (ih (max b v))

/-- Splitting off the first read of a sequence. -/
theorem seenVals_cons (o : Option String) (reads : List (Option String)) :
    seenVals (o :: reads) = readVals o ++ seenVals reads := by
  cases o with
  | none => simp [seenVals, readVals]
  | some c => simp [seenVals, readVals]

/-- C3: after any non-raising sequence of memory-surface reads the peak
is the max-merge of every `Allocated:` value seen across the available
reads (so, started from the fresh state, it is the maximum value seen);
it never decreases, the other counters are untouched, and an unavailable
read is a no-op that raises nothing. -/
theorem peak_memory_max_merge (reads : List (Option String))
    (st st' : Stats) (h : readSeq reads st = .ok st') :
    st'.peak_memory = (seenVals reads).foldl max st.peak_memory
    ∧ st.peak_memory ≤ st'.peak_memory
    ∧ st'.inferences = st.inferences
    ∧ st'.gpu_checks = st.gpu_checks
    ∧ check_memory_usage none st = .ok st := by
  have main :
      ∀ (rs : List (Option String)) (s s' : Stats),
        readSeq rs s = .ok s' →
        s'.peak_memory = (seenVals rs).foldl max s.peak_memory
        ∧ s'.inferences = s.inferences
        ∧ s'.gpu_checks = s.gpu_checks := by
    intro rs
    induction rs with
    | nil =>
      intro s s' hh
      have : s = s' := Except.ok.inj hh
      rw [← this]
      exact ⟨rfl, rfl, rfl⟩
    | cons o rest ih =>
      intro s s' hh
      rw [readSeq, List.foldlM_cons] at hh
      cases ho : check_memory_usage o s with
      | error e => rw [ho] at hh; exact Except.noConfusion hh
      | ok s1 =>
        rw [ho] at hh
        obtain ⟨hp1, hi1, hg1⟩ := check_memory_usage_ok o s s1 ho
        obtain ⟨hp2, hi2, hg2⟩ := ih s1 s' hh
        refine ⟨?_, by rw [hi2, hi1], by rw [hg2, hg1]⟩
        rw [hp2, hp1, seenVals_cons, List.foldl_append]
  obtain ⟨hp, hi, hg⟩ := main reads st st' h
  exact ⟨hp, by rw [hp]; exact le_foldl_max _ _, hi, hg, rfl⟩

/-- C3 witness: the spec scenario — an available read reporting
1048576, an unavailable read, an available read reporting 2097152 —
yields peak 2097152 with the middle read a no-op. -/
theorem peak_memory_max_merge_witness :
    ((⟨0, 2097152, 0⟩ : Stats).peak_memory
        = (seenVals [some "Allocated: 1048576", none,
            some "Allocated: 2097152"]).foldl max initStats.peak_memory)
    ∧ initStats.peak_memory ≤ (⟨0, 2097152, 0⟩ : Stats).peak_memory
    ∧ (⟨0, 2097152, 0⟩ : Stats).inferences = initStats.inferences
    ∧ (⟨0, 2097152, 0⟩ : Stats).gpu_checks = initStats.gpu_checks
    ∧ check_memory_usage none initStats = .ok initStats :=
  peak_memory_max_merge
    [some "Allocated: 1048576", none, some "Allocated: 2097152"]
    initStats ⟨0, 2097152, 0⟩ (by rfl)

/-! ## Claims C6 and C7: soak loop termination, reporting and status -/

/-- GPU polls never touch the inference counter. -/
theorem check_gpu_stats_inferences (o : Option String) (st : Stats) :
    (check_gpu_stats o st).inferences = st.inferences := by
  cases o <;> rfl

/-- Invariant of the soak loop under a discrete clock: with no interrupt,
per-iteration overhead bounded by `E` and non-raising memory reads, the
loop with enough fuel reaches a non-interrupted exit whose clock is at
least the duration, overshoots by less than one iteration, and whose
inference count equals the number of iterations, each of which advances
the clock by at most `11 + E` ms. -/
theorem soakLoop_spec (env : RunEnv) (duration E : Nat)
    (hInt : env.interrupt = none)
    (hE : ∀ j, env.extraMs j ≤ E)
    (hMem : ∀ k st, ∃ st2,
      check_memory_usage (env.memSurface k) st = .ok st2) :
    ∀ fuel t lastReport i st nR, duration - t < fuel →
    ∃ out, soakLoop env duration fuel t lastReport i st nR
        = some (.ok out)
      ∧ out.interrupted = false
      ∧ duration ≤ out.clock
      ∧ (out.clock = t ∨ out.clock < duration + 11 + E)
      ∧ i ≤ out.iteration
      ∧ out.stats.inferences = st.inferences + (out.iteration - i)
      ∧ out.clock ≤ t + (out.iteration - i) * (11 + E) := by
  intro fuel
  induction fuel with
  | zero => intro t lastReport i st nR hf; omega
  | succ fuel ih =>
    intro t lastReport i st nR hf
    rw [soakLoop, hInt]
    rw [if_neg (by simp)]
    by_cases ht : t < duration
    · rw [if_pos ht]
      obtain ⟨st2, hst2, hinf⟩ : ∃ st2,
          (if (i + 1) % 100 = 0 then
            pollSurfaces env (i + 1)
              { st with inferences := st.inferences + 1 }
          else .ok { st with inferences := st.inferences + 1 })
            = .ok st2
          ∧ st2.inferences = st.inferences + 1 := by
        by_cases hp : (i + 1) % 100 = 0
        · rw [if_pos hp]
          unfold pollSurfaces
          obtain ⟨s2, hs2⟩ :=
            hMem (i + 1) { st with inferences := st.inferences + 1 }
          rw [hs2]
          refine ⟨_, rfl, ?_⟩
          rw [check_gpu_stats_inferences]
          exact (check_memory_usage_ok _ _ _ hs2).2.1
        · rw [if_neg hp]
          exact ⟨_, rfl, rfl⟩
      simp only [hst2]
      by_cases hr : 60000 ≤ t + 11 + env.extraMs i - lastReport
      · rw [if_pos hr]
        obtain ⟨out, hout, h1, h2, h3, h4, h5, h6⟩ :=
          ih (t + 11 + env.extraMs i) (t + 11 + env.extraMs i) (i + 1)
            st2 (nR + 1) (by omega)
        have hEi := hE i
        refine ⟨out, hout, h1, h2, ?_, by omega, by omega, ?_⟩
        · rcases h3 with h3 | h3 <;> omega
        · have hit : out.iteration - i
              = (out.iteration - (i + 1)) + 1 := by omega
          rw [hit, Nat.succ_mul]
          omega
      · rw [if_neg hr]
        obtain ⟨out, hout, h1, h2, h3, h4, h5, h6⟩ :=
          ih (t + 11 + env.extraMs i) lastReport (i + 1)
            st2 nR (by omega)
        have hEi := hE i
        refine ⟨out, hout, h1, h2, ?_, by omega, by omega, ?_⟩
        · rcases h3 with h3 | h3 <;> omega
        · have hit : out.iteration - i
              = (out.iteration - (i + 1)) + 1 := by omega
          rw [hit, Nat.succ_mul]
          omega
    · rw [if_neg ht]
      refine ⟨⟨st, t, i, nR, false⟩, rfl, rfl, ?_, Or.inl rfl,
        Nat.le_refl i, ?_, ?_⟩
      · show duration ≤ t
        omega
      · show st.inferences = st.inferences + (i - i)
        omega
      · show t ≤ t + (i - i) * (11 + E)
        omega

/-- C6 (amended): any soak run started with at least one module that
returns normally — by elapsed duration or by `KeyboardInterrupt` — emits
the final report and returns status 0: the interrupt handler only logs
and falls through to the final report, so interruption is not
distinguished by the exit status. -/
theorem run_reports_and_status (env : RunEnv) (duration : Nat)
    (r : RunResult) (hM : env.modules ≠ [])
    (h : run env duration = some (.ok r)) :
    r.finalReport = true ∧ r.status = 0 := by
  have hne : env.modules.isEmpty = false := by
    cases hm : env.modules with
    | nil => exact absurd hm hM
    | cons a l => rfl
  simp only [run, hne, Bool.false_eq_true, if_false] at h
  split at h
  · exact Option.noConfusion h
  · simp at h
  · have h2 := Except.ok.inj (Option.some.inj h)
    rw [← h2]
    exact ⟨rfl, rfl⟩

/-- C6 counterexample: a run interrupted before its first iteration
still emits the final report but returns status 0, not the non-zero
status the claim requires for cancellation. -/
theorem interrupted_run_returns_zero :
    run envInterrupt 1000
      = some (.ok ⟨0, 0, true, false, initStats, 0, true⟩) := by rfl

/-- C6 witness: the interrupted run above instantiating the amended
theorem. -/
theorem run_reports_and_status_witness :
    (⟨0, 0, true, false, initStats, 0, true⟩ : RunResult).finalReport = true
    ∧ (⟨0, 0, true, false, initStats, 0, true⟩ : RunResult).status = 0 :=
  run_reports_and_status envInterrupt 1000
    ⟨0, 0, true, false, initStats, 0, true⟩ (by decide) (by rfl)

/-- C7: an uncancelled soak run with a module loaded, non-raising memory
reads and per-iteration overhead at most `E` terminates, with elapsed
time in `[D, D + p)` for `p = 11 + E` the iteration period (11 ms being
the two fixed sleeps of one iteration), and with at least `D / p`
inferences. -/
theorem soak_run_terminates (env : RunEnv) (duration E : Nat)
    (hM : env.modules ≠ [])
    (hInt : env.interrupt = none)
    (hE : ∀ j, env.extraMs j ≤ E)
    (hMem : ∀ k st, ∃ st2,
      check_memory_usage (env.memSurface k) st = .ok st2) :
    ∃ r, run env duration = some (.ok r)
      ∧ duration ≤ r.elapsedMs
      ∧ r.elapsedMs < duration + (11 + E)
      ∧ duration / (11 + E) ≤ r.stats.inferences
      ∧ r.interrupted = false
      ∧ r.status = 0
      ∧ r.finalReport = true := by
  have hne : env.modules.isEmpty = false := by
    cases hm : env.modules with
    | nil => exact absurd hm hM
    | cons a l => rfl
  obtain ⟨out, hout, h1, h2, h3, h4, h5, h6⟩ :=
    soakLoop_spec env duration E hInt hE hMem (duration + 1) 0 0 0
      initStats 0 (by omega)
  refine ⟨⟨0, out.reports, true, false, out.stats, out.clock,
    out.interrupted⟩, ?_, h2, ?_, ?_, h1, rfl, rfl⟩
  · simp only [run, hne, Bool.false_eq_true, if_false, hout]
  · show out.clock < duration + (11 + E)
    rcases h3 with h3 | h3 <;> omega
  · show duration / (11 + E) ≤ out.stats.inferences
    have h5' : out.stats.inferences = out.iteration := by
      simpa [initStats] using h5
    have h6' : out.clock ≤ out.iteration * (11 + E) := by simpa using h6
    have hle : duration ≤ (11 + E) * out.stats.inferences := by
      rw [h5', Nat.mul_comm]
      omega
    exact Nat.div_le_of_le_mul hle

/-- C7 witness: a healthy 25 ms run with zero overhead, evaluated
concretely (it performs three iterations, finishing at 33 ms). -/
theorem soak_run_terminates_witness :
    ∃ r, run envHealthy 25 = some (.ok r)
      ∧ 25 ≤ r.elapsedMs
      ∧ r.elapsedMs < 25 + (11 + 0)
      ∧ 25 / (11 + 0) ≤ r.stats.inferences
      ∧ r.interrupted = false
      ∧ r.status = 0
      ∧ r.finalReport = true :=
  soak_run_terminates envHealthy 25 0 (by decide) rfl
    (fun j => Nat.le_refl 0) (fun k st => ⟨st, rfl⟩)

end Prism
